import Mathlib

/-!
Shallow embedding of the livekit-livestream transcription agent core:
the StorageService (participant states, room events, transcript export)
and the TranscriptionService (STT session lifecycle, abort/cleanup/shutdown).

Conventions of the embedding:
* JavaScript `Date` values are modelled as natural numbers (milliseconds);
  each operation that reads the clock takes an explicit `now` argument.
* `Date.prototype.toLocaleTimeString` and `toLocaleString` are
  environment-dependent formatters outside the program; they are modelled
  abstractly as the decimal rendering of the millisecond timestamp.
* A JavaScript `Map<string, V>` is modelled as an association list in
  insertion order: `set` replaces the value of an existing key in place and
  appends new keys at the end, `delete` removes the key, iteration follows
  the list order.  This matches the ECMAScript Map iteration contract.
* `Array.prototype.sort` with the comparator `a.timestamp - b.timestamp`
  is a stable sort keyed on the timestamp (ECMAScript 2019 requires sort
  stability); any stable sort computes the same list, so it is modelled by
  `List.insertionSort` on the reflexive timestamp order, which is stable.
* Logger calls are modelled as an append-only list of `LogEvent` values;
  file writing, the provider network stream, and `publishData` are external
  collaborators, modelled respectively as the returned text, an abstract
  handle, and an append-only `published` list.
* Asynchronous effects are sequenced in program order; the bodies of the two
  background processing loops of `setupTranscription` interact with the
  external audio/STT collaborators and appear as an explicit `process`
  state-transformer parameter.
-/

namespace Livestream

/-- One log line, tagged by which logger call in the source produced it. -/
inductive LogEvent where
  | settingUp (name : String)
  | errorStateNotFound (identity : String)
  | warnAbortExisting (name : String)
  | sttActive (name : String)
  | audioEnded (name : String)
  | transcriptLine (time : Nat) (name text : String)
  | warnCannotAddTranscript (identity : String)
  | warnRoomNotSet
  | cleanupCompleted (name : String)
  | shuttingDown
  | shutdownComplete
deriving DecidableEq, Repr

/-- models/types.js TranscriptEntry. -/
structure TranscriptEntry where
  timestamp : Nat
  participantIdentity : String
  participantName : String
  text : String
  isFinal : Bool
deriving DecidableEq, Repr

/-- The kind field of a ParticipantRoomEvent. -/
inductive RoomEventKind where
  | join
  | leave
deriving DecidableEq, Repr

/-- models/types.js ParticipantRoomEvent. -/
structure ParticipantRoomEvent where
  timestamp : Nat
  kind : RoomEventKind
  participantIdentity : String
  participantName : String
deriving DecidableEq, Repr

/-- models/types.js ParticipantState.  The `sttStream` handle is an opaque
identifier of the provider stream object. -/
structure ParticipantState where
  identity : String
  name : String
  transcripts : List TranscriptEntry
  isActive : Bool
  joinedAt : Nat
  leftAt : Option Nat := none
  sttStream : Option Nat := none
deriving DecidableEq, Repr

/-- JavaScript Map.get: the value at the first occurrence of the key. -/
def mapGet {α : Type} (m : List (String × α)) (k : String) : Option α :=
  (m.find? (fun p => p.1 == k)).map (fun p => p.2)

/-- JavaScript Map.set: replace the value at an existing key in place,
append a new key at the end. -/
def mapSet {α : Type} : List (String × α) → String → α → List (String × α)
  | [], k, v => [(k, v)]
  | p :: m, k, v => if p.1 == k then (k, v) :: m else p :: mapSet m k v

/-- StorageService private fields.  The `slog` list records the logger
lines emitted by the storage methods. -/
structure StorageState where
  participantStates : List (String × ParticipantState)
  roomEvents : List ParticipantRoomEvent
  sessionStartTime : Nat
  slog : List LogEvent := []
deriving DecidableEq, Repr

/-- StorageService.addParticipant: create on first sight, otherwise update
the name, reset joinedAt and clear leftAt; always push a join room event.
Returns the updated storage and the state the source returns. -/
def addParticipant (s : StorageState) (identity name : String) (now : Nat) :
    StorageState × ParticipantState :=
  let ev : ParticipantRoomEvent :=
    { timestamp := now, kind := .join, participantIdentity := identity, participantName := name }
  match mapGet s.participantStates identity with
  | none =>
    let st : ParticipantState :=
      { identity := identity, name := name, transcripts := [], isActive := false, joinedAt := now }
    ({ s with participantStates := mapSet s.participantStates identity st,
              roomEvents := s.roomEvents ++ [ev] }, st)
  | some st0 =>
    let st : ParticipantState := { st0 with name := name, joinedAt := now, leftAt := none }
    ({ s with participantStates := mapSet s.participantStates identity st,
              roomEvents := s.roomEvents ++ [ev] }, st)

/-- StorageService.markParticipantLeft: set leftAt when the state exists;
always push a leave room event. -/
def markParticipantLeft (s : StorageState) (identity name : String) (now : Nat) : StorageState :=
  let ev : ParticipantRoomEvent :=
    { timestamp := now, kind := .leave, participantIdentity := identity, participantName := name }
  match mapGet s.participantStates identity with
  | none => { s with roomEvents := s.roomEvents ++ [ev] }
  | some st =>
    { s with participantStates := mapSet s.participantStates identity { st with leftAt := some now },
             roomEvents := s.roomEvents ++ [ev] }

/-- StorageService.getParticipantState. -/
def getParticipantState (s : StorageState) (identity : String) : Option ParticipantState :=
  mapGet s.participantStates identity

/-- StorageService.addTranscript: warn and return when the identity is
unknown; otherwise append the entry and, for a final entry, emit the
real-time console line. -/
def addTranscript (s : StorageState) (identity text : String) (isFinal : Bool) (now : Nat) :
    StorageState :=
  match mapGet s.participantStates identity with
  | none => { s with slog := s.slog ++ [.warnCannotAddTranscript identity] }
  | some st =>
    let entry : TranscriptEntry :=
      { timestamp := now, participantIdentity := identity, participantName := st.name,
        text := text, isFinal := isFinal }
    let newStates :=
      mapSet s.participantStates identity { st with transcripts := st.transcripts ++ [entry] }
    let s1 := { s with participantStates := newStates }
    if isFinal then { s1 with slog := s1.slog ++ [.transcriptLine now st.name text] } else s1

/-- The tagged union built inside exportTranscript before sorting. -/
inductive TimelineEvent where
  | transcript (data : TranscriptEntry)
  | room_event (data : ParticipantRoomEvent)
deriving DecidableEq, Repr

/-- The comparator key of the sort in exportTranscript. -/
def tsOf : TimelineEvent → Nat
  | .transcript d => d.timestamp
  | .room_event d => d.timestamp

/-- The comparator relation of the sort in exportTranscript (ascending
timestamp; the JavaScript sort is stable, so equal keys keep array order). -/
def tsLe (a b : TimelineEvent) : Prop := tsOf a ≤ tsOf b

instance : DecidableRel tsLe := fun a b => Nat.decLe (tsOf a) (tsOf b)

instance : IsTotal TimelineEvent tsLe := ⟨fun a b => Nat.le_total (tsOf a) (tsOf b)⟩

instance : IsTrans TimelineEvent tsLe := ⟨fun _ _ _ h1 h2 => Nat.le_trans h1 h2⟩

/-- The combined unsorted array of exportTranscript: every transcript of
every participant in map iteration order, then every room event. -/
def timelineOf (s : StorageState) : List TimelineEvent :=
  ((s.participantStates.map (fun p => p.2.transcripts)).flatten).map .transcript
    ++ s.roomEvents.map .room_event

/-- The sorted timeline rendered by exportTranscript. -/
def exportTimelineItems (s : StorageState) : List TimelineEvent :=
  List.insertionSort tsLe (timelineOf s)

/-- Abstract rendering of toLocaleTimeString (see the module header). -/
def fmtTime (t : Nat) : String := toString t

/-- Abstract rendering of toLocaleString (see the module header). -/
def fmtDate (t : Nat) : String := toString t

/-- One line of the exported body. -/
def renderItem : TimelineEvent → String
  | .transcript e =>
    "[" ++ fmtTime e.timestamp ++ "] " ++ e.participantName ++ ": " ++ e.text ++ "\n"
  | .room_event e =>
    "[" ++ fmtTime e.timestamp ++ "] --- " ++ e.participantName ++ " " ++
      (if e.kind = .join then "➡️ joined the room" else "⬅️ left the room") ++ " ---\n"

/-- The metadata header of exportTranscript. -/
def exportHeader (s : StorageState) (now : Nat) : String :=
  let duration := (now - s.sessionStartTime) / 1000
  let minutes := duration / 60
  let seconds := duration % 60
  "=== CONVERSATION TRANSCRIPT ===\n" ++
  "Session Start: " ++ fmtDate s.sessionStartTime ++ "\n" ++
  "Session End: " ++ fmtDate now ++ "\n" ++
  "Duration: " ++ toString minutes ++ "m " ++ toString seconds ++ "s\n" ++
  "Participants: " ++ toString s.participantStates.length ++ "\n" ++
  "\n"

/-- StorageService.exportTranscript: the produced text payload (file naming,
file writing and the logger lines around them are external effects). -/
def exportTranscript (s : StorageState) (now : Nat) : String :=
  let timeline := exportTimelineItems s
  exportHeader s now ++
    (if timeline.length = 0 then "(no activity)\n"
     else String.join (timeline.map renderItem))

theorem mapGet_nil {α : Type} (k : String) : mapGet ([] : List (String × α)) k = none := rfl

theorem mapGet_cons {α : Type} (p : String × α) (m : List (String × α)) (k : String) :
    mapGet (p :: m) k = if p.1 = k then some p.2 else mapGet m k := by
  by_cases h : p.1 = k <;> simp [mapGet, List.find?_cons, h]

theorem mapGet_mapSet_self {α : Type} (m : List (String × α)) (k : String) (v : α) :
    mapGet (mapSet m k v) k = some v := by
  induction m with
  | nil => simp [mapGet_cons, mapSet]
  | cons p m ih =>
    by_cases h : p.1 = k
    · simp [mapSet, h, mapGet_cons]
    · simp [mapSet, h, mapGet_cons, ih]

theorem mapGet_mapSet_ne {α : Type} (m : List (String × α)) (k k' : String) (v : α)
    (h : k' ≠ k) : mapGet (mapSet m k v) k' = mapGet m k' := by
  induction m with
  | nil => simp [mapSet, mapGet_cons, mapGet_nil, Ne.symm h]
  | cons p m ih =>
    by_cases hp : p.1 = k
    · subst hp
      simp [mapSet, mapGet_cons, Ne.symm h]
    · simp [mapSet, hp, mapGet_cons, ih]

theorem mapSet_self {α : Type} (m : List (String × α)) (k : String) (v : α)
    (h : mapGet m k = some v) : mapSet m k v = m := by
  induction m with
  | nil => simp [mapGet_nil] at h
  | cons p m ih =>
    by_cases hp : p.1 = k
    · rw [mapGet_cons, if_pos hp] at h
      obtain rfl : p.2 = v := by injection h
      have hkp : (k, p.2) = p := by rw [← hp]
      simp [mapSet, hp, hkp]
    · rw [mapGet_cons, if_neg hp] at h
      simp [mapSet, hp, ih h]

/-- The live STT session data attached to a participant: in the source an
AbortController in the abortControllers map.  The "aborted" history is kept
separately as `abortCalls`. -/
structure TranscriptionState where
  storage : StorageState
  abortControllers : List String
  abortCalls : List String := []
  roomSet : Bool := false
  isShuttingDown : Bool := false
  nextHandle : Nat := 0
  published : List (String × String × Nat) := []
  log : List LogEvent := []
deriving DecidableEq, Repr

/-- TranscriptionService.cleanupTranscription: return silently when no
participant state exists; otherwise clear isActive, close and drop the STT
stream, remove the abort controller, and log the cleanup line. -/
def cleanupTranscription (ts : TranscriptionState) (identity : String) : TranscriptionState :=
  match mapGet ts.storage.participantStates identity with
  | none => ts
  | some st =>
    let st1 := { st with isActive := false }
    let st2 := if st1.sttStream.isSome then { st1 with sttStream := none } else st1
    let newStates := mapSet ts.storage.participantStates identity st2
    { ts with storage := { ts.storage with participantStates := newStates },
              abortControllers := ts.abortControllers.filter (fun kk => kk != identity),
              log := ts.log ++ [.cleanupCompleted st.name] }

/-- TranscriptionService.abortTranscription: fire and drop the abort
controller when registered, clear isActive when the state exists, then run
cleanupTranscription. -/
def abortTranscription (ts : TranscriptionState) (identity : String) : TranscriptionState :=
  let ts1 :=
    if identity ∈ ts.abortControllers then
      { ts with abortCalls := ts.abortCalls ++ [identity],
                abortControllers := ts.abortControllers.filter (fun kk => kk != identity) }
    else ts
  let ts2 :=
    match mapGet ts1.storage.participantStates identity with
    | none => ts1
    | some st =>
      let newStates := mapSet ts1.storage.participantStates identity { st with isActive := false }
      { ts1 with storage := { ts1.storage with participantStates := newStates } }
  cleanupTranscription ts2 identity

/-- JavaScript Map.set restricted to the abortControllers map, whose values
(the controller objects) are kept abstract: an existing key keeps its
position, a new key is appended. -/
def keySet (l : List String) (k : String) : List String :=
  if k ∈ l then l else l ++ [k]

/-- TranscriptionService.setupTranscription.  The audio pump and the event
consumer interact with external collaborators and are abstracted by the
`process` state transformer; every in-process step (the missing-state
guard, the abort of a previous session, controller registration, stream
creation, activation, and the finally-block cleanup) is explicit. -/
def setupTranscription (ts : TranscriptionState) (identity pname : String)
    (process : TranscriptionState → TranscriptionState) : TranscriptionState :=
  let ts0 := { ts with log := ts.log ++ [.settingUp pname] }
  match mapGet ts0.storage.participantStates identity with
  | none =>
    cleanupTranscription
      { ts0 with log := ts0.log ++ [LogEvent.errorStateNotFound identity] } identity
  | some st =>
    let ts1 :=
      if st.isActive ∧ st.sttStream.isSome then
        abortTranscription
          { ts0 with log := ts0.log ++ [LogEvent.warnAbortExisting pname] } identity
      else ts0
    let ts2 := { ts1 with abortControllers := keySet ts1.abortControllers identity,
                          nextHandle := ts1.nextHandle + 1 }
    let ts3 :=
      match mapGet ts2.storage.participantStates identity with
      | none => ts2
      | some st2 =>
        let newStates := mapSet ts2.storage.participantStates identity
          { st2 with sttStream := some ts2.nextHandle, isActive := true }
        { ts2 with storage := { ts2.storage with participantStates := newStates },
                   log := ts2.log ++ [.sttActive pname] }
    let ts4 := process ts3
    cleanupTranscription { ts4 with log := ts4.log ++ [.audioEnded pname] } identity

/-- TranscriptionService.publishTranscriptToFrontend: warn when the room is
not set; otherwise append the payload to the published data messages. -/
def publishTranscriptToFrontend (ts : TranscriptionState) (identity pname text : String)
    (now : Nat) : TranscriptionState :=
  if !ts.roomSet then { ts with log := ts.log ++ [.warnRoomNotSet] }
  else
    { ts with published := ts.published ++ [(if pname ≠ "" then pname else identity, text, now)] }

/-- String.prototype.trim: drop leading and trailing whitespace.  Defined
directly on the character list so that it evaluates inside the kernel. -/
def jsTrim (s : String) : String :=
  ⟨((s.data.dropWhile Char.isWhitespace).reverse.dropWhile Char.isWhitespace).reverse⟩

/-- The stt.SpeechEventType values. -/
inductive SpeechEventKind where
  | finalTranscript
  | interimTranscript
  | startOfSpeech
  | endOfSpeech
deriving DecidableEq, Repr

/-- One entry of the alternatives array of a speech event. -/
structure SpeechAlternative where
  text : String
deriving DecidableEq, Repr

/-- A provider speech event: its type plus the alternatives array. -/
structure SpeechEvent where
  kind : SpeechEventKind
  alternatives : List SpeechAlternative
deriving DecidableEq, Repr

/-- TranscriptionService.handleTranscriptEvent: on a final transcript whose
best alternative is present and nonempty after trimming, store the entry
and publish it; otherwise do nothing. -/
def handleTranscriptEvent (ts : TranscriptionState) (identity pname : String)
    (ev : SpeechEvent) (now : Nat) : TranscriptionState :=
  if ev.kind = .finalTranscript then
    match (ev.alternatives.head?).map (fun a => a.text) with
    | none => ts
    | some text =>
      if text ≠ "" ∧ jsTrim text ≠ "" then
        let ts1 := { ts with storage := addTranscript ts.storage identity text true now }
        publishTranscriptToFrontend ts1 identity pname text now
      else ts
  else ts

/-- TranscriptionService.shutdown: raise the shutting-down flag, abort every
identity present in the abortControllers map, and log completion. -/
def shutdown (ts : TranscriptionState) : TranscriptionState :=
  let ts0 := { ts with isShuttingDown := true, log := ts.log ++ [LogEvent.shuttingDown] }
  let ts1 := ts0.abortControllers.foldl abortTranscription ts0
  { ts1 with log := ts1.log ++ [LogEvent.shutdownComplete] }

/-! ## Claim theorems -/

/-- C4: for an identity that already has a ParticipantState, addParticipant
updates the display name, resets joinedAt, clears leftAt (leaving the
transcripts, isActive, identity and sttStream fields unchanged, as the
record update shows) and appends one join RoomEvent; for an unknown
identity it creates a fresh state with empty transcripts and isActive
false; other identities are untouched. -/
theorem C4_addParticipant_upsert (s : StorageState) (identity name : String) (now : Nat) :
    (∀ st0, mapGet s.participantStates identity = some st0 →
      (addParticipant s identity name now).1.participantStates
        = mapSet s.participantStates identity { st0 with name := name, joinedAt := now, leftAt := none } ∧
      mapGet (addParticipant s identity name now).1.participantStates identity
        = some { st0 with name := name, joinedAt := now, leftAt := none }) ∧
    (mapGet s.participantStates identity = none →
      mapGet (addParticipant s identity name now).1.participantStates identity
        = some { identity := identity, name := name, transcripts := [], isActive := false,
                 joinedAt := now }) ∧
    (addParticipant s identity name now).1.roomEvents
      = s.roomEvents ++ [{ timestamp := now, kind := .join, participantIdentity := identity,
                           participantName := name }] ∧
    (∀ k, k ≠ identity →
      mapGet (addParticipant s identity name now).1.participantStates k
        = mapGet s.participantStates k) := by
  refine ⟨fun st0 h => ?_, fun h => ?_, ?_, fun k hk => ?_⟩
  · constructor
    · simp [addParticipant, h]
    · simp [addParticipant, h, mapGet_mapSet_self]
  · simp [addParticipant, h, mapGet_mapSet_self]
  · cases h : mapGet s.participantStates identity <;> simp [addParticipant, h]
  · cases h : mapGet s.participantStates identity <;>
      simp [addParticipant, h, mapGet_mapSet_ne _ _ _ _ hk]

/-- C4 witness: the theorem applied to a concrete one-participant store. -/
def stW : ParticipantState :=
  { identity := "alice", name := "Alice",
    transcripts := [{ timestamp := 1, participantIdentity := "alice", participantName := "Alice",
                      text := "hello", isFinal := true }],
    isActive := true, joinedAt := 0, leftAt := some 3 }

/-- A concrete one-participant store used by the witnesses. -/
def sW : StorageState :=
  { participantStates := [("alice", stW)], roomEvents := [], sessionStartTime := 0 }

/-- C4 witness: rejoin of alice at time 7 keeps her transcripts and
isActive flag while renaming her and clearing leftAt. -/
theorem C4_addParticipant_upsert_witness :
    mapGet sW.participantStates "alice" = some stW ∧
    mapGet (addParticipant sW "alice" "Alicia" 7).1.participantStates "alice"
      = some { stW with name := "Alicia", joinedAt := 7, leftAt := none } :=
  ⟨rfl, ((C4_addParticipant_upsert sW "alice" "Alicia" 7).1 stW rfl).2⟩

/-- C6: markParticipantLeft always appends exactly one leave RoomEvent,
sets leftAt only when a state exists (changing no other field, as the
record update shows), never touches other identities or the other storage
fields, and is total (the source raises nothing). -/
theorem C6_markParticipantLeft_spec (s : StorageState) (identity name : String) (now : Nat) :
    (markParticipantLeft s identity name now).roomEvents
      = s.roomEvents ++ [{ timestamp := now, kind := .leave, participantIdentity := identity,
                           participantName := name }] ∧
    (∀ st0, mapGet s.participantStates identity = some st0 →
      (markParticipantLeft s identity name now).participantStates
        = mapSet s.participantStates identity { st0 with leftAt := some now }) ∧
    (mapGet s.participantStates identity = none →
      (markParticipantLeft s identity name now).participantStates = s.participantStates) ∧
    (markParticipantLeft s identity name now).sessionStartTime = s.sessionStartTime ∧
    (markParticipantLeft s identity name now).slog = s.slog ∧
    (∀ k, k ≠ identity →
      mapGet (markParticipantLeft s identity name now).participantStates k
        = mapGet s.participantStates k) := by
  refine ⟨?_, fun st0 h => ?_, fun h => ?_, ?_, ?_, fun k hk => ?_⟩
  · cases h : mapGet s.participantStates identity <;> simp [markParticipantLeft, h]
  · simp [markParticipantLeft, h]
  · simp [markParticipantLeft, h]
  · cases h : mapGet s.participantStates identity <;> simp [markParticipantLeft, h]
  · cases h : mapGet s.participantStates identity <;> simp [markParticipantLeft, h]
  · cases h : mapGet s.participantStates identity <;>
      simp [markParticipantLeft, h, mapGet_mapSet_ne _ _ _ _ hk]

/-- C6 witness: the theorem applied both to the known identity alice and to
the unknown identity ghost, each at a concrete clock value. -/
theorem C6_markParticipantLeft_spec_witness :
    (markParticipantLeft sW "alice" "Alice" 9).participantStates
      = mapSet sW.participantStates "alice" { stW with leftAt := some 9 } ∧
    (markParticipantLeft sW "ghost" "Ghost" 9).participantStates = sW.participantStates ∧
    (markParticipantLeft sW "ghost" "Ghost" 9).roomEvents
      = sW.roomEvents ++ [{ timestamp := 9, kind := .leave, participantIdentity := "ghost",
                            participantName := "Ghost" }] :=
  ⟨(C6_markParticipantLeft_spec sW "alice" "Alice" 9).2.1 stW rfl,
   (C6_markParticipantLeft_spec sW "ghost" "Ghost" 9).2.2.1 rfl,
   (C6_markParticipantLeft_spec sW "ghost" "Ghost" 9).1⟩

/-- C8: when the merged timeline is empty (no transcripts anywhere and no
room events), the exported text is still prefixed with the metadata header
and its body is the explicit no-activity marker, not the empty string. -/
theorem C8_export_empty_marker (s : StorageState) (now : Nat)
    (h1 : ∀ p ∈ s.participantStates, (p.2).transcripts = ([] : List TranscriptEntry))
    (h2 : s.roomEvents = []) :
    exportTranscript s now = exportHeader s now ++ "(no activity)\n" ∧
    exportTranscript s now ≠ exportHeader s now := by
  have htl : timelineOf s = [] := by
    have hfl : (s.participantStates.map (fun p => p.2.transcripts)).flatten
        = ([] : List TranscriptEntry) := by
      rw [List.flatten_eq_nil_iff]
      intro l hl
      obtain ⟨p, hp, rfl⟩ := List.mem_map.mp hl
      exact h1 p hp
    simp [timelineOf, hfl, h2]
  have hitems : exportTimelineItems s = [] := by
    simp [exportTimelineItems, htl, List.insertionSort]
  constructor
  · simp [exportTranscript, hitems]
  · simp [exportTranscript, hitems]
    intro heq
    have hlen := congrArg String.length heq
    simp [String.length_append] at hlen
    exact absurd hlen (by decide)

/-- A concrete store with one silent participant, used by the C8 witness. -/
def sQuiet : StorageState :=
  { participantStates :=
      [("bob", { identity := "bob", name := "Bob", transcripts := [], isActive := false,
                 joinedAt := 0 })],
    roomEvents := [], sessionStartTime := 0 }

/-- C8 witness: the theorem applied to the concrete silent store. -/
theorem C8_export_empty_marker_witness :
    exportTranscript sQuiet 65000 = exportHeader sQuiet 65000 ++ "(no activity)\n" ∧
    exportTranscript sQuiet 65000 ≠ exportHeader sQuiet 65000 :=
  C8_export_empty_marker sQuiet 65000 (by decide) rfl

/-- C10: when the identity of the participant has no ParticipantState,
setupTranscription logs the setup line and the missing-state error and
returns: no STT stream is created, no abort controller is registered, and
no store state is mutated (the finally-block cleanup is a no-op). -/
theorem C10_setup_requires_state (ts : TranscriptionState) (identity pname : String)
    (process : TranscriptionState → TranscriptionState)
    (h : mapGet ts.storage.participantStates identity = none) :
    setupTranscription ts identity pname process
      = { ts with log := ts.log ++ [LogEvent.settingUp pname,
                                    LogEvent.errorStateNotFound identity] } ∧
    (setupTranscription ts identity pname process).storage = ts.storage ∧
    (setupTranscription ts identity pname process).abortControllers = ts.abortControllers ∧
    (setupTranscription ts identity pname process).nextHandle = ts.nextHandle := by
  have hmain : setupTranscription ts identity pname process
      = { ts with log := ts.log ++ [LogEvent.settingUp pname,
                                    LogEvent.errorStateNotFound identity] } := by
    simp [setupTranscription, h, cleanupTranscription]
  exact ⟨hmain, by rw [hmain], by rw [hmain], by rw [hmain]⟩

/-- A concrete service state whose storage has no participants, used by the
C10 witness. -/
def tsEmpty : TranscriptionState :=
  { storage := { participantStates := [], roomEvents := [], sessionStartTime := 0 },
    abortControllers := [] }

/-- C10 witness: the theorem applied to the empty service state with an
arbitrary concrete background processing function. -/
theorem C10_setup_requires_state_witness :
    setupTranscription tsEmpty "carol" "Carol" id
      = { tsEmpty with log := tsEmpty.log ++ [LogEvent.settingUp "Carol",
                                              LogEvent.errorStateNotFound "carol"] } :=
  (C10_setup_requires_state tsEmpty "carol" "Carol" id rfl).1

/-- A concrete service state with a known participant whose room was set,
the configuration setRoom is documented to produce. -/
def tsLive : TranscriptionState :=
  { storage := sW, abortControllers := ["alice"], roomSet := true }

/-- A concrete service state with a known participant and no room set: the
configuration of every reachable state of this codebase, since setRoom has
no caller anywhere in the source. -/
def tsNoRoom : TranscriptionState :=
  { storage := sW, abortControllers := ["alice"] }

/-- C9 counterexample: setRoom is never invoked anywhere in the source, so
the room stays unset; on a final transcript event with nonempty text,
handleTranscriptEvent then mutates the store but publishes nothing, only
logging the room-not-set warning — refuting the claim that it stores a
transcript and publishes it whenever the event is final with nonempty
trimmed text. -/
theorem C9_counterexample :
    tsNoRoom.roomSet = false ∧
    (handleTranscriptEvent tsNoRoom "alice" "Alice"
        { kind := .finalTranscript, alternatives := [{ text := "hi there" }] } 4).storage
      ≠ tsNoRoom.storage ∧
    (handleTranscriptEvent tsNoRoom "alice" "Alice"
        { kind := .finalTranscript, alternatives := [{ text := "hi there" }] } 4).published
      = tsNoRoom.published ∧
    (handleTranscriptEvent tsNoRoom "alice" "Alice"
        { kind := .finalTranscript, alternatives := [{ text := "hi there" }] } 4).log
      = tsNoRoom.log ++ [LogEvent.warnRoomNotSet] := by
  decide

/-- C9 amended: for a participant with a store state, handleTranscriptEvent
stores a transcript exactly when the event is a final transcript whose best
alternative is present and nonempty after trimming; under the same
condition it invokes the publish path, which appends a data message only
when the room has been set and otherwise degrades to a room-not-set
warning — and since setRoom has no caller in this codebase, every reachable
state takes the warning branch and nothing is ever published.  Interim
events, events with no alternative and final events with empty or
whitespace-only text leave the service state untouched. -/
theorem C9_handle_final_nonempty_only (ts : TranscriptionState) (identity pname : String)
    (ev : SpeechEvent) (now : Nat) (st : ParticipantState)
    (hst : mapGet ts.storage.participantStates identity = some st) :
    (∀ text, ev.kind = .finalTranscript →
      (ev.alternatives.head?).map SpeechAlternative.text = some text →
      text ≠ "" → jsTrim text ≠ "" →
      (handleTranscriptEvent ts identity pname ev now).storage.participantStates
        = mapSet ts.storage.participantStates identity
            { st with transcripts := st.transcripts ++
                [{ timestamp := now, participantIdentity := identity,
                   participantName := st.name, text := text, isFinal := true }] } ∧
      (ts.roomSet = true →
        (handleTranscriptEvent ts identity pname ev now).published
          = ts.published ++ [((if pname ≠ "" then pname else identity), text, now)]) ∧
      (ts.roomSet = false →
        (handleTranscriptEvent ts identity pname ev now).published = ts.published ∧
        (handleTranscriptEvent ts identity pname ev now).log
          = ts.log ++ [LogEvent.warnRoomNotSet])) ∧
    (ev.kind ≠ .finalTranscript → handleTranscriptEvent ts identity pname ev now = ts) ∧
    (ev.alternatives = [] → handleTranscriptEvent ts identity pname ev now = ts) ∧
    (∀ text, (ev.alternatives.head?).map SpeechAlternative.text = some text →
      ¬(text ≠ "" ∧ jsTrim text ≠ "") →
      handleTranscriptEvent ts identity pname ev now = ts) := by
  refine ⟨fun text hk hh hne htr => ⟨?_, fun hroom => ?_, fun hroom => ?_⟩,
    fun hk => ?_, fun ha => ?_, fun text hh hcond => ?_⟩
  · by_cases hr : ts.roomSet <;>
      simp [handleTranscriptEvent, hk, hh, hne, htr, addTranscript, hst,
        publishTranscriptToFrontend, hr]
  · simp [handleTranscriptEvent, hk, hh, hne, htr, addTranscript, hst,
      publishTranscriptToFrontend, hroom]
  · constructor <;>
      simp [handleTranscriptEvent, hk, hh, hne, htr, addTranscript, hst,
        publishTranscriptToFrontend, hroom]
  · simp [handleTranscriptEvent, hk]
  · simp [handleTranscriptEvent, ha]
  · by_cases hk : ev.kind = SpeechEventKind.finalTranscript
    · simp [handleTranscriptEvent, hk, hh, hcond]
    · simp [handleTranscriptEvent, hk]

/-- C9 witness: a final event with text stores in both room configurations;
with the room set it publishes, without it (the reachable configuration) it
only warns; a whitespace-only final event and an interim event change
nothing. -/
theorem C9_handle_final_nonempty_only_witness :
    ((handleTranscriptEvent tsLive "alice" "Alice"
        { kind := .finalTranscript, alternatives := [{ text := "hi there" }] } 4).published
      = tsLive.published ++ [("Alice", "hi there", 4)]) ∧
    ((handleTranscriptEvent tsNoRoom "alice" "Alice"
        { kind := .finalTranscript, alternatives := [{ text := "hi there" }] } 4).published
      = tsNoRoom.published) ∧
    handleTranscriptEvent tsNoRoom "alice" "Alice"
        { kind := .finalTranscript, alternatives := [{ text := "   " }] } 4 = tsNoRoom ∧
    handleTranscriptEvent tsNoRoom "alice" "Alice"
        { kind := .interimTranscript, alternatives := [{ text := "hi" }] } 4 = tsNoRoom := by
  refine ⟨?_, ?_, ?_, ?_⟩
  · exact (((C9_handle_final_nonempty_only tsLive "alice" "Alice"
      { kind := .finalTranscript, alternatives := [{ text := "hi there" }] } 4 stW rfl).1
        "hi there" rfl rfl (by decide) (by decide)).2.1 rfl)
  · exact ((((C9_handle_final_nonempty_only tsNoRoom "alice" "Alice"
      { kind := .finalTranscript, alternatives := [{ text := "hi there" }] } 4 stW rfl).1
        "hi there" rfl rfl (by decide) (by decide)).2.2 rfl).1)
  · exact (C9_handle_final_nonempty_only tsNoRoom "alice" "Alice"
      { kind := .finalTranscript, alternatives := [{ text := "   " }] } 4 stW rfl).2.2.2
        "   " rfl (by decide)
  · exact (C9_handle_final_nonempty_only tsNoRoom "alice" "Alice"
      { kind := .interimTranscript, alternatives := [{ text := "hi" }] } 4 stW rfl).2.1
        (by decide)

/-- Characterization of a single cleanupTranscription call on an identity
whose state exists. -/
theorem cleanupTranscription_eq_of_get (t : TranscriptionState) (id : String)
    (st : ParticipantState) (h : mapGet t.storage.participantStates id = some st) :
    cleanupTranscription t id =
      { t with
        storage :=
          { t.storage with
            participantStates :=
              mapSet t.storage.participantStates id
                { st with isActive := false, sttStream := none } },
        abortControllers := t.abortControllers.filter (fun kk => kk != id),
        log := t.log ++ [LogEvent.cleanupCompleted st.name] } := by
  cases hss : st.sttStream with
  | none =>
    have hx : ({ st with isActive := false, sttStream := none } : ParticipantState)
        = { st with isActive := false } := by
      obtain ⟨a, b, c, d, e, f, g⟩ := st
      simp only at hss
      subst hss
      rfl
    rw [hx]
    simp [cleanupTranscription, h, hss]
  | some v => simp [cleanupTranscription, h, hss]

/-- Characterization of cleanupTranscription when the state is missing. -/
theorem cleanupTranscription_eq_of_none (t : TranscriptionState) (id : String)
    (h : mapGet t.storage.participantStates id = none) :
    cleanupTranscription t id = t := by
  simp [cleanupTranscription, h]

/-- The number of cleanup-completed log lines in a log. -/
def cleanupLogCount (l : List LogEvent) : Nat :=
  (l.filter fun e => match e with | LogEvent.cleanupCompleted _ => true | _ => false).length

/-- A concrete participant state with a live STT stream. -/
def stC2 : ParticipantState :=
  { identity := "alice", name := "Alice", transcripts := [], isActive := true, joinedAt := 0,
    sttStream := some 0 }

/-- A concrete service state with one active session for alice. -/
def tsC2 : TranscriptionState :=
  { storage := { participantStates := [("alice", stC2)], roomEvents := [], sessionStartTime := 0 },
    abortControllers := ["alice"] }

/-- C2 counterexample: calling cleanupTranscription twice for an identity
whose ParticipantState exists emits the cleanup log line twice, not once:
the only guard is the missing-state early return, and the state survives
cleanup. -/
theorem C2_counterexample :
    cleanupLogCount (cleanupTranscription (cleanupTranscription tsC2 "alice") "alice").log = 2 ∧
    cleanupLogCount (cleanupTranscription (cleanupTranscription tsC2 "alice") "alice").log ≠ 1 := by
  decide

/-- C2 amended: the second cleanupTranscription call raises no error and
changes nothing except appending one more cleanup log line: the storage,
the abort controllers, the abort history and the published list all stay
exactly as after the first call (isActive false, sttStream cleared,
controller removed), and two calls emit two cleanup log lines. -/
theorem C2_cleanup_idempotent_except_log (ts : TranscriptionState) (identity : String)
    (st : ParticipantState)
    (h : mapGet ts.storage.participantStates identity = some st) :
    cleanupTranscription (cleanupTranscription ts identity) identity
      = { cleanupTranscription ts identity with
          log := (cleanupTranscription ts identity).log ++ [LogEvent.cleanupCompleted st.name] } ∧
    mapGet (cleanupTranscription ts identity).storage.participantStates identity
      = some { st with isActive := false, sttStream := none } ∧
    identity ∉ (cleanupTranscription ts identity).abortControllers ∧
    cleanupLogCount (cleanupTranscription (cleanupTranscription ts identity) identity).log
      = cleanupLogCount ts.log + 2 := by
  have hget : mapGet (cleanupTranscription ts identity).storage.participantStates identity
      = some { st with isActive := false, sttStream := none } := by
    rw [cleanupTranscription_eq_of_get ts identity st h]
    exact mapGet_mapSet_self _ _ _
  have hmem : identity ∉ (cleanupTranscription ts identity).abortControllers := by
    rw [cleanupTranscription_eq_of_get ts identity st h]
    simp
  have hlog1 : (cleanupTranscription ts identity).log
      = ts.log ++ [LogEvent.cleanupCompleted st.name] := by
    rw [cleanupTranscription_eq_of_get ts identity st h]
  have hsecond : cleanupTranscription (cleanupTranscription ts identity) identity
      = { cleanupTranscription ts identity with
          log := (cleanupTranscription ts identity).log
            ++ [LogEvent.cleanupCompleted st.name] } := by
    have hfilter : (cleanupTranscription ts identity).abortControllers.filter
        (fun kk => kk != identity) = (cleanupTranscription ts identity).abortControllers := by
      apply List.filter_eq_self.mpr
      intro a ha
      by_cases hai : a = identity
      · exact absurd (hai ▸ ha) hmem
      · simp [hai]
    have hsetback : mapSet (cleanupTranscription ts identity).storage.participantStates identity
        { st with isActive := false, sttStream := none }
        = (cleanupTranscription ts identity).storage.participantStates :=
      mapSet_self _ _ _ hget
    rw [cleanupTranscription_eq_of_get (cleanupTranscription ts identity) identity
      { st with isActive := false, sttStream := none } hget]
    simp [hfilter, hsetback]
  refine ⟨hsecond, hget, hmem, ?_⟩
  rw [hsecond]
  simp [cleanupLogCount, hlog1, List.filter_append]

/-- C2 witness: the amended theorem applied to the concrete state with one
active session for alice. -/
theorem C2_cleanup_idempotent_except_log_witness :
    cleanupTranscription (cleanupTranscription tsC2 "alice") "alice"
      = { cleanupTranscription tsC2 "alice" with
          log := (cleanupTranscription tsC2 "alice").log
            ++ [LogEvent.cleanupCompleted "Alice"] } ∧
    mapGet (cleanupTranscription tsC2 "alice").storage.participantStates "alice"
      = some { stC2 with isActive := false, sttStream := none } :=
  ⟨(C2_cleanup_idempotent_except_log tsC2 "alice" stC2 rfl).1,
   (C2_cleanup_idempotent_except_log tsC2 "alice" stC2 rfl).2.1⟩

theorem mem_mapSet {α : Type} (m : List (String × α)) (k : String) (v : α) (p : String × α)
    (h : p ∈ mapSet m k v) : p = (k, v) ∨ p ∈ m := by
  induction m with
  | nil => simpa [mapSet] using h
  | cons q m ih =>
    by_cases hq : q.1 = k
    · simp [mapSet, hq] at h
      rcases h with h | h
      · exact Or.inl h
      · exact Or.inr (List.mem_cons_of_mem _ h)
    · simp [mapSet, hq, List.mem_cons] at h
      rcases h with h | h
      · exact Or.inr (h ▸ List.mem_cons_self _ _)
      · rcases ih h with h' | h'
        · exact Or.inl h'
        · exact Or.inr (List.mem_cons_of_mem _ h')

theorem mapGet_mem {α : Type} (m : List (String × α)) (k : String) (v : α)
    (h : mapGet m k = some v) : ∃ q ∈ m, q.2 = v := by
  unfold mapGet at h
  cases hf : m.find? (fun p => p.1 == k) with
  | none => rw [hf] at h; simp at h
  | some q =>
    rw [hf] at h
    simp at h
    exact ⟨q, List.mem_of_find?_eq_some hf, h⟩

/-- Entries present after addTranscript: either an entry already stored, or
the freshly appended entry, whose isFinal flag is exactly the argument. -/
theorem addTranscript_mem (s : StorageState) (identity text : String) (isFinal : Bool)
    (now : Nat) (p : String × ParticipantState) (e : TranscriptEntry)
    (hp : p ∈ (addTranscript s identity text isFinal now).participantStates)
    (he : e ∈ (p.2).transcripts) :
    (∃ q ∈ s.participantStates, e ∈ (q.2).transcripts) ∨ e.isFinal = isFinal := by
  cases hg : mapGet s.participantStates identity with
  | none =>
    left
    refine ⟨p, ?_, he⟩
    simpa [addTranscript, hg] using hp
  | some st =>
    have hp' : p ∈ mapSet s.participantStates identity
        { st with transcripts := st.transcripts ++
            [{ timestamp := now, participantIdentity := identity, participantName := st.name,
               text := text, isFinal := isFinal }] } := by
      cases isFinal <;> simpa [addTranscript, hg] using hp
    rcases mem_mapSet _ _ _ _ hp' with hnew | hold
    · subst hnew
      simp at he
      rcases he with he | he
      · obtain ⟨q, hq, hq2⟩ := mapGet_mem _ _ _ hg
        exact Or.inl ⟨q, hq, hq2 ▸ he⟩
      · right
        rw [he]
    · exact Or.inl ⟨p, hold, he⟩

/-- A concrete store holding one interim (non-final) transcript entry. -/
def eInterim : TranscriptEntry :=
  { timestamp := 5, participantIdentity := "alice", participantName := "Alice",
    text := "interim words", isFinal := false }

/-- The store used by the C1 counterexample. -/
def sC1 : StorageState :=
  { participantStates :=
      [("alice", { identity := "alice", name := "Alice", transcripts := [eInterim],
                   isActive := false, joinedAt := 0 })],
    roomEvents := [], sessionStartTime := 0 }

/-- C1 counterexample: exportTranscript applies no isFinal filter, so a
stored entry with isFinal = false appears in the exported timeline and its
line is rendered in the body. -/
theorem C1_counterexample :
    eInterim.isFinal = false ∧
    TimelineEvent.transcript eInterim ∈ exportTimelineItems sC1 ∧
    exportTranscript sC1 9 = exportHeader sC1 9 ++ "[5] Alice: interim words\n" := by
  refine ⟨rfl, by decide, by decide⟩

/-- C1 amended: the exported timeline holds exactly the TranscriptEntry
values of every ParticipantState regardless of their isFinal flag, plus
every RoomEvent; the finality filter lives upstream: handleTranscriptEvent
only ever stores entries with isFinal = true, so stores populated through
it contain no interim entry. -/
theorem C1_timeline_contents :
    (∀ (s : StorageState) (item : TimelineEvent),
      item ∈ exportTimelineItems s ↔
        ((∃ p ∈ s.participantStates, ∃ e ∈ (p.2).transcripts,
            item = TimelineEvent.transcript e) ∨
         (∃ rev ∈ s.roomEvents, item = TimelineEvent.room_event rev))) ∧
    (∀ (ts : TranscriptionState) (identity pname : String) (ev : SpeechEvent) (now : Nat)
       (p : String × ParticipantState) (e : TranscriptEntry),
      p ∈ (handleTranscriptEvent ts identity pname ev now).storage.participantStates →
      e ∈ (p.2).transcripts →
      (∃ q ∈ ts.storage.participantStates, e ∈ (q.2).transcripts) ∨ e.isFinal = true) := by
  constructor
  · intro s item
    rw [exportTimelineItems, List.mem_insertionSort]
    simp only [timelineOf, List.mem_append, List.mem_map, List.mem_flatten]
    constructor
    · rintro (⟨e, ⟨l, ⟨p, hp, rfl⟩, he⟩, rfl⟩ | ⟨rev, hrev, rfl⟩)
      · exact Or.inl ⟨p, hp, e, he, rfl⟩
      · exact Or.inr ⟨rev, hrev, rfl⟩
    · rintro (⟨p, hp, e, he, rfl⟩ | ⟨rev, hrev, rfl⟩)
      · exact Or.inl ⟨e, ⟨p.2.transcripts, ⟨p, hp, rfl⟩, he⟩, rfl⟩
      · exact Or.inr ⟨rev, hrev, rfl⟩
  · intro ts identity pname ev now p e hp he
    by_cases hk : ev.kind = SpeechEventKind.finalTranscript
    · cases hh : (ev.alternatives.head?).map SpeechAlternative.text with
      | none =>
        rw [show handleTranscriptEvent ts identity pname ev now = ts by
          simp [handleTranscriptEvent, hk, hh]] at hp
        exact Or.inl ⟨p, hp, he⟩
      | some text =>
        by_cases hc : text ≠ "" ∧ jsTrim text ≠ ""
        · have hst : (handleTranscriptEvent ts identity pname ev now).storage.participantStates
              = (addTranscript ts.storage identity text true now).participantStates := by
            by_cases hr : ts.roomSet <;>
              simp [handleTranscriptEvent, hk, hh, hc, publishTranscriptToFrontend, hr]
          rw [hst] at hp
          exact addTranscript_mem ts.storage identity text true now p e hp he
        · rw [show handleTranscriptEvent ts identity pname ev now = ts by
            simp [handleTranscriptEvent, hk, hh, hc]] at hp
          exact Or.inl ⟨p, hp, he⟩
    · rw [show handleTranscriptEvent ts identity pname ev now = ts by
        simp [handleTranscriptEvent, hk]] at hp
      exact Or.inl ⟨p, hp, he⟩

/-- C1 witness: the amended theorem applied to the concrete interim store
and to a concrete interim speech event. -/
theorem C1_timeline_contents_witness :
    (TimelineEvent.transcript eInterim ∈ exportTimelineItems sC1 ↔
      ((∃ p ∈ sC1.participantStates, ∃ e ∈ (p.2).transcripts,
          TimelineEvent.transcript eInterim = TimelineEvent.transcript e) ∨
       (∃ rev ∈ sC1.roomEvents, TimelineEvent.transcript eInterim
          = TimelineEvent.room_event rev))) ∧
    ((∃ q ∈ tsLive.storage.participantStates,
        ({ timestamp := 1, participantIdentity := "alice", participantName := "Alice",
           text := "hello", isFinal := true } : TranscriptEntry) ∈ (q.2).transcripts) ∨
      ({ timestamp := 1, participantIdentity := "alice", participantName := "Alice",
         text := "hello", isFinal := true } : TranscriptEntry).isFinal = true) :=
  ⟨C1_timeline_contents.1 sC1 (TimelineEvent.transcript eInterim),
   C1_timeline_contents.2 tsLive "alice" "Alice"
     { kind := .finalTranscript, alternatives := [{ text := "hello" }] } 1
     ("alice", { stW with transcripts := stW.transcripts ++
        [{ timestamp := 1, participantIdentity := "alice", participantName := "Alice",
           text := "hello", isFinal := true }] })
     { timestamp := 1, participantIdentity := "alice", participantName := "Alice",
       text := "hello", isFinal := true } (by decide) (by decide)⟩

/-- A store built operation by operation: alice joins at 0, the leave event
is recorded at 5, and only afterwards a transcript entry is added, also
timestamped 5.  Arrival order at the shared timestamp: leave, then
transcript. -/
def sC3 : StorageState :=
  addTranscript
    (markParticipantLeft
      (addParticipant { participantStates := [], roomEvents := [], sessionStartTime := 0 }
        "alice" "Alice" 0).1
      "alice" "Alice" 5)
    "alice" "hi" true 5

/-- C3 counterexample: at the shared timestamp 5 the export renders the
transcript before the leave event although the leave event arrived first:
ties are broken by the combined-array position (all transcripts before all
room events), not by arrival order. -/
theorem C3_counterexample :
    sC3.roomEvents.map (fun rev => rev.timestamp) = [0, 5] ∧
    exportTimelineItems sC3 =
      [TimelineEvent.room_event
         { timestamp := 0, kind := .join, participantIdentity := "alice",
           participantName := "Alice" },
       TimelineEvent.transcript
         { timestamp := 5, participantIdentity := "alice", participantName := "Alice",
           text := "hi", isFinal := true },
       TimelineEvent.room_event
         { timestamp := 5, kind := .leave, participantIdentity := "alice",
           participantName := "Alice" }] := by
  refine ⟨by decide, by decide⟩

/-- C3 amended: the exported timeline is sorted by timestamp ascending, and
equal timestamps keep the order of the combined pre-sort array (every
transcript, grouped by participant in map order, before every room event)
rather than global arrival order; distinct timestamps are ordered by value
alone, so for entries at T1 and T3 of one identity and a leave event at T2
with T1 < T2 < T3 the export lists T1, T2, T3 regardless of the insertion
order of the two transcript entries. -/
theorem C3_sorted_timeline :
    (∀ s : StorageState, List.Sorted tsLe (exportTimelineItems s)) ∧
    (∀ (id : String) (st : ParticipantState) (e1 e3 : TranscriptEntry)
       (rev : ParticipantRoomEvent) (s : StorageState),
      e1.timestamp < rev.timestamp → rev.timestamp < e3.timestamp →
      (st.transcripts = [e1, e3] ∨ st.transcripts = [e3, e1]) →
      s.participantStates = [(id, st)] → s.roomEvents = [rev] →
      exportTimelineItems s
        = [TimelineEvent.transcript e1, TimelineEvent.room_event rev,
           TimelineEvent.transcript e3]) := by
  constructor
  · intro s
    exact List.sorted_insertionSort tsLe (timelineOf s)
  · intro id st e1 e3 rev s h12 h23 hst hs hev
    have f1 : tsLe (TimelineEvent.transcript e1) (TimelineEvent.room_event rev) := by
      simp only [tsLe, tsOf]
      omega
    have f2 : ¬ tsLe (TimelineEvent.transcript e3) (TimelineEvent.room_event rev) := by
      simp only [tsLe, tsOf]
      omega
    have f3 : ¬ tsLe (TimelineEvent.transcript e3) (TimelineEvent.transcript e1) := by
      simp only [tsLe, tsOf]
      omega
    rcases hst with hst | hst <;>
      simp [exportTimelineItems, timelineOf, hs, hev, hst, List.insertionSort,
        List.orderedInsert, f1, f2, f3]

/-- Concrete entries for the C3 witness. -/
def e1W : TranscriptEntry :=
  { timestamp := 1, participantIdentity := "alice", participantName := "Alice",
    text := "first", isFinal := true }

/-- Concrete entries for the C3 witness. -/
def e3W : TranscriptEntry :=
  { timestamp := 3, participantIdentity := "alice", participantName := "Alice",
    text := "third", isFinal := true }

/-- Concrete leave event for the C3 witness. -/
def revW : ParticipantRoomEvent :=
  { timestamp := 2, kind := .leave, participantIdentity := "alice", participantName := "Alice" }

/-- The C3 witness store: the two transcript entries are stored in reversed
arrival order. -/
def sScenario : StorageState :=
  { participantStates :=
      [("alice", { identity := "alice", name := "Alice", transcripts := [e3W, e1W],
                   isActive := false, joinedAt := 0 })],
    roomEvents := [revW], sessionStartTime := 0 }

/-- C3 witness: the amended theorem applied to the concrete scenario with
T1 = 1 < T2 = 2 < T3 = 3 and reversed insertion order. -/
theorem C3_sorted_timeline_witness :
    exportTimelineItems sScenario
      = [TimelineEvent.transcript e1W, TimelineEvent.room_event revW,
         TimelineEvent.transcript e3W] :=
  C3_sorted_timeline.2 "alice"
    { identity := "alice", name := "Alice", transcripts := [e3W, e1W],
      isActive := false, joinedAt := 0 }
    e1W e3W revW sScenario (by decide) (by decide) (Or.inr rfl) rfl rfl

/-- The strict timestamp order on timeline events. -/
def tsLt (a b : TimelineEvent) : Prop := tsOf a < tsOf b

instance : IsAntisymm TimelineEvent tsLt :=
  ⟨fun _ _ h1 h2 => absurd (Nat.lt_trans h1 h2) (Nat.lt_irrefl _)⟩

/-- Participant a with one transcript finalized at timestamp 10. -/
def p7a : String × ParticipantState :=
  ("a", { identity := "a", name := "A",
          transcripts := [{ timestamp := 10, participantIdentity := "a", participantName := "A",
                            text := "from a", isFinal := true }],
          isActive := false, joinedAt := 0 })

/-- Participant b with one transcript finalized at the same timestamp 10. -/
def p7b : String × ParticipantState :=
  ("b", { identity := "b", name := "B",
          transcripts := [{ timestamp := 10, participantIdentity := "b", participantName := "B",
                            text := "from b", isFinal := true }],
          isActive := false, joinedAt := 0 })

/-- Store with map insertion order a, b. -/
def s7ab : StorageState :=
  { participantStates := [p7a, p7b], roomEvents := [], sessionStartTime := 0 }

/-- The same participant states with map insertion order b, a. -/
def s7ba : StorageState :=
  { participantStates := [p7b, p7a], roomEvents := [], sessionStartTime := 0 }

/-- C7 counterexample: two stores holding the same participant states, room
events, timestamps and session start, differing only in map insertion
order, export different text when two participants share a timestamp: the
output does depend on map iteration order at timestamp ties. -/
theorem C7_counterexample :
    s7ab.participantStates.Perm s7ba.participantStates ∧
    s7ab.roomEvents = s7ba.roomEvents ∧
    s7ab.sessionStartTime = s7ba.sessionStartTime ∧
    exportTranscript s7ab 20 ≠ exportTranscript s7ba 20 := by
  refine ⟨by decide, rfl, rfl, by decide⟩

/-- C7 amended: export is a pure function of the store state where state
includes the participant map in its insertion order (same fields, byte
identical output); and when no two timeline items share a timestamp the
output is additionally invariant under permutation of the participant map,
so the tie-breaking map-order dependence exhibited by the counterexample is
the only one. -/
theorem C7_deterministic_export :
    (∀ (s1 s2 : StorageState) (now : Nat),
      s1.participantStates = s2.participantStates → s1.roomEvents = s2.roomEvents →
      s1.sessionStartTime = s2.sessionStartTime →
      exportTranscript s1 now = exportTranscript s2 now) ∧
    (∀ (s1 s2 : StorageState) (now : Nat),
      s1.participantStates.Perm s2.participantStates → s1.roomEvents = s2.roomEvents →
      s1.sessionStartTime = s2.sessionStartTime →
      (timelineOf s1).Pairwise (fun a b => tsOf a ≠ tsOf b) →
      exportTranscript s1 now = exportTranscript s2 now) := by
  have hsymm : Symmetric (fun a b : TimelineEvent => tsOf a ≠ tsOf b) :=
    fun _ _ h => Ne.symm h
  constructor
  · intro s1 s2 now h1 h2 h3
    simp [exportTranscript, exportHeader, exportTimelineItems, timelineOf, h1, h2, h3]
  · intro s1 s2 now hp he hs hdist
    have hperm : (timelineOf s1).Perm (timelineOf s2) := by
      unfold timelineOf
      refine List.Perm.append ?_ ?_
      · exact ((hp.map (fun p => p.2.transcripts)).flatten).map _
      · rw [he]
    have hsort1 := List.sorted_insertionSort tsLe (timelineOf s1)
    have hsort2 := List.sorted_insertionSort tsLe (timelineOf s2)
    have hperm' : (List.insertionSort tsLe (timelineOf s1)).Perm
        (List.insertionSort tsLe (timelineOf s2)) :=
      (List.perm_insertionSort tsLe (timelineOf s1)).trans
        (hperm.trans (List.perm_insertionSort tsLe (timelineOf s2)).symm)
    have hne1 : (List.insertionSort tsLe (timelineOf s1)).Pairwise
        (fun a b => tsOf a ≠ tsOf b) :=
      ((List.perm_insertionSort tsLe (timelineOf s1)).pairwise_iff @hsymm).mpr hdist
    have hdist2 : (timelineOf s2).Pairwise (fun a b => tsOf a ≠ tsOf b) :=
      (hperm.pairwise_iff @hsymm).mp hdist
    have hne2 : (List.insertionSort tsLe (timelineOf s2)).Pairwise
        (fun a b => tsOf a ≠ tsOf b) :=
      ((List.perm_insertionSort tsLe (timelineOf s2)).pairwise_iff @hsymm).mpr hdist2
    have hlt1 : List.Sorted tsLt (List.insertionSort tsLe (timelineOf s1)) :=
      (hsort1.and hne1).imp (fun h => Nat.lt_of_le_of_ne h.1 h.2)
    have hlt2 : List.Sorted tsLt (List.insertionSort tsLe (timelineOf s2)) :=
      (hsort2.and hne2).imp (fun h => Nat.lt_of_le_of_ne h.1 h.2)
    have heq : exportTimelineItems s1 = exportTimelineItems s2 :=
      List.eq_of_perm_of_sorted hperm' hlt1 hlt2
    unfold exportTranscript exportHeader
    rw [hs, hp.length_eq, heq]

/-- Participant b with its transcript moved to timestamp 11. -/
def p7b' : String × ParticipantState :=
  ("b", { identity := "b", name := "B",
          transcripts := [{ timestamp := 11, participantIdentity := "b", participantName := "B",
                            text := "from b", isFinal := true }],
          isActive := false, joinedAt := 0 })

/-- Distinct-timestamp store with map order a, b. -/
def s7ab' : StorageState :=
  { participantStates := [p7a, p7b'], roomEvents := [], sessionStartTime := 0 }

/-- Distinct-timestamp store with map order b, a. -/
def s7ba' : StorageState :=
  { participantStates := [p7b', p7a], roomEvents := [], sessionStartTime := 0 }

/-- C7 witness: with distinct timestamps (10 and 11) the two insertion
orders export identical text, by the amended theorem. -/
theorem C7_deterministic_export_witness :
    exportTranscript s7ab' 20 = exportTranscript s7ba' 20 :=
  C7_deterministic_export.2 s7ab' s7ba' 20 (by decide) rfl rfl (by decide)

theorem mapSet_mapSet {α : Type} (m : List (String × α)) (k : String) (v w : α) :
    mapSet (mapSet m k v) k w = mapSet m k w := by
  induction m with
  | nil => simp [mapSet]
  | cons p m ih =>
    by_cases hp : p.1 = k
    · simp [mapSet, hp]
    · simp [mapSet, hp, ih]

/-- Cleanup leaves the shutdown flag unchanged. -/
theorem cleanup_isShuttingDown (t : TranscriptionState) (id : String) :
    (cleanupTranscription t id).isShuttingDown = t.isShuttingDown := by
  cases h : mapGet t.storage.participantStates id with
  | none => rw [cleanupTranscription_eq_of_none _ _ h]
  | some st => rw [cleanupTranscription_eq_of_get _ _ _ h]

/-- Cleanup never touches the abort history. -/
theorem cleanup_abortCalls (t : TranscriptionState) (id : String) :
    (cleanupTranscription t id).abortCalls = t.abortCalls := by
  cases h : mapGet t.storage.participantStates id with
  | none => rw [cleanupTranscription_eq_of_none _ _ h]
  | some st => rw [cleanupTranscription_eq_of_get _ _ _ h]

/-- Cleanup removes the abort controller exactly when the state exists. -/
theorem cleanup_controllers (t : TranscriptionState) (id : String) :
    (cleanupTranscription t id).abortControllers
      = if (mapGet t.storage.participantStates id).isSome
          then t.abortControllers.filter (fun kk => kk != id)
          else t.abortControllers := by
  cases h : mapGet t.storage.participantStates id with
  | none => rw [cleanupTranscription_eq_of_none _ _ h]; simp
  | some st => rw [cleanupTranscription_eq_of_get _ _ _ h]; simp

/-- The participant map after cleanup: the target identity is deactivated
with its stream cleared, every other key is untouched. -/
theorem cleanup_state_get (t : TranscriptionState) (id k : String) :
    mapGet (cleanupTranscription t id).storage.participantStates k
      = if k = id
          then (mapGet t.storage.participantStates id).map
            (fun st => { st with isActive := false, sttStream := none })
          else mapGet t.storage.participantStates k := by
  cases h : mapGet t.storage.participantStates id with
  | none =>
    rw [cleanupTranscription_eq_of_none _ _ h]
    by_cases hk : k = id
    · subst hk; simp [h]
    · simp [hk]
  | some st =>
    rw [cleanupTranscription_eq_of_get _ _ _ h]
    by_cases hk : k = id
    · subst hk; simp [mapGet_mapSet_self]
    · simp [hk, mapGet_mapSet_ne _ _ _ _ hk]

theorem filter_ne_of_not_mem (l : List String) (id : String) (h : id ∉ l) :
    l.filter (fun kk => kk != id) = l := by
  apply List.filter_eq_self.mpr
  intro a ha
  by_cases hai : a = id
  · exact absurd (hai ▸ ha) h
  · simp [hai]

/-- Abort leaves the shutdown flag unchanged. -/
theorem abort_isShuttingDown (ts : TranscriptionState) (id : String) :
    (abortTranscription ts id).isShuttingDown = ts.isShuttingDown := by
  by_cases hmem : id ∈ ts.abortControllers
  all_goals cases hget : mapGet ts.storage.participantStates id
  all_goals simp [abortTranscription, hmem, hget, cleanup_isShuttingDown]

/-- Abort appends the aborted identity to the abort history exactly when a
controller was registered for it. -/
theorem abort_abortCalls (ts : TranscriptionState) (id : String) :
    (abortTranscription ts id).abortCalls
      = ts.abortCalls ++ (if id ∈ ts.abortControllers then [id] else []) := by
  by_cases hmem : id ∈ ts.abortControllers
  all_goals cases hget : mapGet ts.storage.participantStates id
  all_goals simp [abortTranscription, hmem, hget, cleanup_abortCalls]

/-- Abort removes the controller of the target identity and no other. -/
theorem abort_controllers (ts : TranscriptionState) (id : String) :
    (abortTranscription ts id).abortControllers
      = ts.abortControllers.filter (fun kk => kk != id) := by
  by_cases hmem : id ∈ ts.abortControllers
  all_goals cases hget : mapGet ts.storage.participantStates id
  · simp [abortTranscription, hmem, hget, cleanup_controllers]
  · simp [abortTranscription, hmem, hget, cleanup_controllers, mapGet_mapSet_self,
      List.filter_filter]
  · simp [abortTranscription, hmem, hget, cleanup_controllers, filter_ne_of_not_mem _ _ hmem]
  · simp [abortTranscription, hmem, hget, cleanup_controllers, mapGet_mapSet_self]

/-- The participant map after abort: the target identity is deactivated
with its stream cleared, every other key is untouched. -/
theorem abort_state_get (ts : TranscriptionState) (id k : String) :
    mapGet (abortTranscription ts id).storage.participantStates k
      = if k = id
          then (mapGet ts.storage.participantStates id).map
            (fun st => { st with isActive := false, sttStream := none })
          else mapGet ts.storage.participantStates k := by
  by_cases hmem : id ∈ ts.abortControllers
  all_goals cases hget : mapGet ts.storage.participantStates id
  all_goals by_cases hk : k = id
  · simp [abortTranscription, hmem, hget, cleanup_state_get, hk]
  · simp [abortTranscription, hmem, hget, cleanup_state_get, hk]
  · simp [abortTranscription, hmem, hget, cleanup_state_get, hk, mapGet_mapSet_self]
  · simp [abortTranscription, hmem, hget, cleanup_state_get, hk,
      mapGet_mapSet_ne _ _ _ _ hk]
  · simp [abortTranscription, hmem, hget, cleanup_state_get, hk]
  · simp [abortTranscription, hmem, hget, cleanup_state_get, hk]
  · simp [abortTranscription, hmem, hget, cleanup_state_get, hk, mapGet_mapSet_self]
  · simp [abortTranscription, hmem, hget, cleanup_state_get, hk,
      mapGet_mapSet_ne _ _ _ _ hk]

/-- Shape of the shutdown loop: folding abortTranscription over a list of
identities keeps the shutdown flag, removes exactly the processed
controllers, preserves and extends the abort history, and deactivates the
state of every processed identity while leaving the rest untouched. -/
theorem foldl_abort_spec (ids : List String) (ts : TranscriptionState) (hnd : ids.Nodup) :
    (ids.foldl abortTranscription ts).isShuttingDown = ts.isShuttingDown ∧
    (∀ k ∈ (ids.foldl abortTranscription ts).abortControllers,
        k ∈ ts.abortControllers ∧ k ∉ ids) ∧
    (∀ a ∈ ts.abortCalls, a ∈ (ids.foldl abortTranscription ts).abortCalls) ∧
    (∀ id ∈ ids, id ∈ ts.abortControllers →
        id ∈ (ids.foldl abortTranscription ts).abortCalls) ∧
    (∀ k, k ∉ ids → mapGet (ids.foldl abortTranscription ts).storage.participantStates k
        = mapGet ts.storage.participantStates k) ∧
    (∀ k st, k ∈ ids →
        mapGet (ids.foldl abortTranscription ts).storage.participantStates k = some st →
        st.isActive = false) := by
  induction ids generalizing ts with
  | nil => simp
  | cons x ids ih =>
    obtain ⟨hx, hnd'⟩ := List.nodup_cons.mp hnd
    obtain ⟨ih1, ih2, ih3, ih4, ih5, ih6⟩ := ih (abortTranscription ts x) hnd'
    rw [List.foldl_cons]
    refine ⟨?_, ?_, ?_, ?_, ?_, ?_⟩
    · rw [ih1, abort_isShuttingDown]
    · intro k hk
      obtain ⟨hk1, hk2⟩ := ih2 k hk
      rw [abort_controllers] at hk1
      have hk3 := List.mem_filter.mp hk1
      refine ⟨hk3.1, ?_⟩
      intro hmem
      rcases List.mem_cons.mp hmem with rfl | hmem'
      · simp at hk3
      · exact hk2 hmem'
    · intro a ha
      apply ih3
      rw [abort_abortCalls]
      exact List.mem_append_left _ ha
    · intro id hid hidc
      rcases List.mem_cons.mp hid with rfl | hid'
      · apply ih3
        rw [abort_abortCalls]
        simp [hidc]
      · apply ih4 id hid'
        rw [abort_controllers]
        apply List.mem_filter.mpr
        refine ⟨hidc, ?_⟩
        have hne : id ≠ x := fun h => hx (h ▸ hid')
        simp [hne]
    · intro k hk
      have hkx : k ≠ x := fun h => hk (h ▸ List.mem_cons_self x ids)
      have hkids : k ∉ ids := fun h => hk (List.mem_cons_of_mem _ h)
      rw [ih5 k hkids, abort_state_get]
      simp [hkx]
    · intro k st hk hget
      rcases List.mem_cons.mp hk with rfl | hk'
      · by_cases hkids : k ∈ ids
        · exact ih6 k st hkids hget
        · rw [ih5 k hkids, abort_state_get] at hget
          simp at hget
          obtain ⟨st0, _, hst0⟩ := hget
          rw [← hst0]
      · exact ih6 k st hk' hget

/-- C5: after shutdown, the shutting-down flag is set, abort ran for every
identity that had a registered controller (hence, by the stated invariant,
for every identity with an active session), no ParticipantState is still
active and the abort-controller map is empty.  The invariant hypothesis is
maintained by the source: a state is activated only right after its
controller is registered, and both teardown paths clear the flag when they
remove the controller; controller keys are unique because the source map is
a JavaScript Map. -/
theorem C5_shutdown_drains_all (ts : TranscriptionState)
    (hinv : ∀ k st, mapGet ts.storage.participantStates k = some st →
        st.isActive = true → k ∈ ts.abortControllers)
    (hnd : ts.abortControllers.Nodup) :
    (shutdown ts).isShuttingDown = true ∧
    (∀ k ∈ ts.abortControllers, k ∈ (shutdown ts).abortCalls) ∧
    (shutdown ts).abortControllers = [] ∧
    (∀ k st, mapGet (shutdown ts).storage.participantStates k = some st →
        st.isActive = false) := by
  obtain ⟨f1, f2, f3, f4, f5, f6⟩ :=
    foldl_abort_spec ts.abortControllers
      { ts with isShuttingDown := true, log := ts.log ++ [LogEvent.shuttingDown] } hnd
  refine ⟨?_, ?_, ?_, ?_⟩
  · simp only [shutdown]
    exact f1
  · intro k hk
    simp only [shutdown]
    exact f4 k hk hk
  · simp only [shutdown]
    apply List.eq_nil_iff_forall_not_mem.mpr
    intro k hk
    exact (f2 k hk).2 (f2 k hk).1
  · intro k st hget
    simp only [shutdown] at hget
    by_cases hk : k ∈ ts.abortControllers
    · exact f6 k st hk hget
    · rw [f5 k hk] at hget
      by_cases hact : st.isActive = true
      · exact absurd (hinv k st hget hact) hk
      · simpa using hact

/-- C5 witness: the theorem applied to a concrete state with two active
sessions; both identities are aborted, the controllers map drains and both
states end inactive. -/
def stB : ParticipantState :=
  { identity := "bob", name := "Bob", transcripts := [], isActive := true, joinedAt := 0,
    sttStream := some 1 }

/-- The concrete two-session service state used by the C5 witness. -/
def tsBusy : TranscriptionState :=
  { storage := { participantStates := [("alice", stC2), ("bob", stB)], roomEvents := [],
                 sessionStartTime := 0 },
    abortControllers := ["alice", "bob"] }

/-- C5 witness: shutdown of the concrete two-session state. -/
theorem C5_shutdown_drains_all_witness :
    (shutdown tsBusy).isShuttingDown = true ∧
    "alice" ∈ (shutdown tsBusy).abortCalls ∧
    (shutdown tsBusy).abortControllers = [] := by
  have hinvW : ∀ k st, mapGet tsBusy.storage.participantStates k = some st →
      st.isActive = true → k ∈ tsBusy.abortControllers := by
    intro k st hget hact
    by_cases h1 : k = "alice"
    · simp [tsBusy, h1]
    · by_cases h2 : k = "bob"
      · simp [tsBusy, h2]
      · rw [show tsBusy.storage.participantStates = [("alice", stC2), ("bob", stB)] from rfl,
          mapGet_cons, mapGet_cons, mapGet_nil] at hget
        simp [Ne.symm h1, Ne.symm h2] at hget
  obtain ⟨a, b, c, _⟩ := C5_shutdown_drains_all tsBusy hinvW (by decide)
  exact ⟨a, b "alice" (by decide), c⟩

end Livestream
